import Mathlib

/-!
Verification development for the MLBB statistics service.

The definitions below are a shallow embedding of the program's data model
and operations:

- `tierFromWinRate` embeds `tierFromWinRate` (scraper.js);
- `buildTierList`, `buildLeaderboard`, `runScrape`, and the request-handler
  functions embed the corresponding functions of server.js;
- `withRetryFrom` / `analyzeHeroR` embed the retrying analysis client (ai.js);
- JS floating-point rates are modelled as exact rationals, JS objects used as
  ordered string-keyed maps as association lists in insertion order, and
  thrown exceptions as `Except` values.

Field names keep the source's names where Lean allows it; the raw sort
fields `_winRate`, `_banRate`, `_pickRate` are called `rawWin`, `rawBan`,
`rawPick` because Lean reserves leading-underscore identifiers.
-/

/-- ASCII-wise lowercasing, the model of JS `String.prototype.toLowerCase`
as applied to hero names and slugs. -/
def lowerStr (s : String) : String := ⟨s.data.map Char.toLower⟩

/-- Canonical hero record produced by the normalizer (scraper.js): display
strings for the three rates, a tier label, and raw numeric rates used only
for sorting. -/
structure Hero where
  heroId : Nat
  name : String
  role : String
  winRate : String
  banRate : String
  pickRate : String
  tier : String
  img : String
  rawWin : ℚ
  rawBan : ℚ
  rawPick : ℚ
deriving DecidableEq

/-- `tierFromWinRate` from scraper.js: win-rate banding into tier labels;
a missing rate yields `Unranked`. -/
def tierFromWinRate (wr : Option ℚ) : String :=
  match wr with
  | none => "Unranked"
  | some w =>
    let pct := w * 100
    if 56 ≤ pct then "S+"
    else if 53 ≤ pct then "S"
    else if 51 ≤ pct then "A"
    else if 49 ≤ pct then "B"
    else "C"

/-- One step of building the `tiers` object in `buildTierList` (server.js):
append `v` to the bucket of key `k`, creating the bucket at the end of the
map when the key is new (JS object insertion order). -/
def upsert (m : List (String × List String)) (k v : String) : List (String × List String) :=
  match m with
  | [] => [(k, [v])]
  | (k0, vs) :: rest =>
    if k0 = k then (k0, vs ++ [v]) :: rest else (k0, vs) :: upsert rest k v

/-- The grouping loop of `buildTierList` (server.js): `heroes.forEach`,
pushing each hero's name onto the bucket of its tier. -/
def groupTiers (heroes : List Hero) : List (String × List String) :=
  heroes.foldl (fun m h => upsert m h.tier h.name) []

/-- The fixed `order` array in `buildTierList` (server.js). -/
def tierOrder : List String := ["S+", "S", "A", "B", "C", "Unranked"]

/-- Key lookup in the ordered string-keyed map model (JS `tiers[t]`). -/
def getBucket (m : List (String × List String)) (k : String) : Option (List String) :=
  (m.find? (fun p => p.1 == k)).map (fun p => p.2)

/-- `buildTierList` from server.js: group heroes by tier, then emit the
fixed-order labels that are present followed by every remaining key of the
grouping in its insertion (first-seen) order. -/
def buildTierList (heroes : List Hero) : List (String × List String) :=
  let tiers := groupTiers heroes
  let priority := tierOrder.filterMap (fun t => (getBucket tiers t).map (fun vs => (t, vs)))
  priority ++ tiers.filter (fun p => !(tierOrder.contains p.1))

/-- First-seen deduplication of a list of labels: the key order a JS object
acquires when fed these keys in order. -/
def firstSeenKeys (l : List String) : List String :=
  l.foldl (fun acc t => if t ∈ acc then acc else acc ++ [t]) []

/-- The five fixed-priority labels named by claim C7 (the spec's fixed order
without the catch-all `Unranked`). -/
def specPriorityLabels : List String := ["S+", "S", "A", "B", "C"]

/-- The key order asserted by claim C7, written from the claim's words (not
from the source, which is `buildTierList`): the labels `S+ S A B C` that
occur, in that order, then all remaining labels in first-seen order. Kept
separate so it can be compared against `buildTierList`. -/
def specTierKeyOrder (heroes : List Hero) : List String :=
  let seen := firstSeenKeys (heroes.map Hero.tier)
  specPriorityLabels.filter (fun t => seen.contains t) ++
    seen.filter (fun t => !(specPriorityLabels.contains t))

/-- A leaderboard entry as produced by `buildLeaderboard` (server.js). -/
structure LBEntry where
  rank : Nat
  name : String
  category : String
  role : String
  points : String
  hero : String
  img : String
deriving DecidableEq

/-- The entry built for the hero at index `i` of a category's top slice:
`{ rank: i + 1, name, category, role: h.role || '—', points: h[stat], hero, img }`. -/
def mkLBEntry (i : Nat) (category : String) (stat : Hero → String) (h : Hero) : LBEntry :=
  { rank := i + 1, name := h.name, category := category,
    role := if h.role = "" then "—" else h.role,
    points := stat h, hero := h.name, img := h.img }

/-- Index-carrying recursion equivalent to `.map((h, i) => ...)` over a list. -/
def topEntries (category : String) (stat : Hero → String) : Nat → List Hero → List LBEntry
  | _, [] => []
  | i, h :: rest => mkLBEntry i category stat h :: topEntries category stat (i + 1) rest

/-- The `top` helper of `buildLeaderboard` (server.js):
`arr.slice(0, 10).map((h, i) => ({rank: i + 1, ...}))`. -/
def top (arr : List Hero) (category : String) (stat : Hero → String) : List LBEntry :=
  topEntries category stat 0 (arr.take 10)

/-- The ordering the JS comparator `(a, b) => b[key] - a[key]` sorts by:
`a` may precede `b` exactly when `key b ≤ key a` (descending). -/
def descBy (key : Hero → ℚ) : Hero → Hero → Prop := fun a b => key b ≤ key a

instance (key : Hero → ℚ) : DecidableRel (descBy key) :=
  fun a b => inferInstanceAs (Decidable (key b ≤ key a))

/-- `[...heroes].sort((a, b) => b[key] - a[key])`: sorting a copy of the
array descending by a raw metric. -/
def sortDescBy (key : Hero → ℚ) (hs : List Hero) : List Hero :=
  hs.insertionSort (descBy key)

/-- `buildLeaderboard` from server.js: the win, ban and pick top-10 slices,
concatenated in that fixed order. -/
def buildLeaderboard (heroes : List Hero) : List LBEntry :=
  let byWin := top (sortDescBy Hero.rawWin heroes) "Top Win Rate" Hero.winRate
  let byBan := top (sortDescBy Hero.rawBan heroes) "Most Banned" Hero.banRate
  let byPick := top (sortDescBy Hero.rawPick heroes) "Most Picked" Hero.pickRate
  byWin ++ byBan ++ byPick

/-- The in-memory `store` of server.js: entity snapshot, derived views,
timestamp and status string. -/
structure Store where
  heroes : List Hero
  tierList : List (String × List String)
  leaderboard : List LBEntry
  lastUpdated : Option String
  status : String
deriving DecidableEq

/-- The store as declared at module load (server.js). -/
def initialStore : Store :=
  { heroes := [], tierList := [], leaderboard := [], lastUpdated := none,
    status := "initializing" }

/-- `runScrape` from server.js. The awaited `scrapeHeroStats()` is modelled
by its outcome: `.ok heroes` when the fetch resolves (possibly with an empty
list), `.error` when it rejects. The transient `status = 'scraping'`
assignment is overwritten on both branches before the function returns; the
returned `Bool` records whether `cache.flushAll()` ran. -/
def runScrape (s : Store) (fetched : Except String (List Hero)) (now : String) :
    Store × Bool :=
  match fetched with
  | .ok heroes =>
    ({ heroes := heroes, tierList := buildTierList heroes,
       leaderboard := buildLeaderboard heroes, lastUpdated := some now,
       status := "ready" }, true)
  | .error _ => ({ s with status := "error" }, false)

/-- HTTP responses the manual-trigger endpoint could give. `conflict`
stands for an HTTP 409; it is part of the response space so that claim C2
can be stated, the handler below never produces it. -/
inductive ScrapeResponse where
  | unauthorized
  | conflict
  | started
deriving DecidableEq

/-- Whether a `ScrapeResponse` is the HTTP 409 conflict response. -/
def isConflict : ScrapeResponse → Bool
  | .conflict => true
  | _ => false

/-- `app.post('/api/scrape')` from server.js: compare the shared-secret
header against the configured secret; on match acknowledge immediately and
fire `runScrape()`. The returned `Bool` records whether a refresh was
started. No in-flight state is consulted. -/
def scrapeHandler (secretHeader cfgSecret : Option String) : ScrapeResponse × Bool :=
  if secretHeader ≠ cfgSecret then (.unauthorized, false) else (.started, true)

/-- How many refreshes are executing after the handler runs, given whether
one was already in flight and whether the handler started another. -/
def refreshesAfter (inFlight started : Bool) : Nat :=
  (if inFlight then 1 else 0) + (if started then 1 else 0)

/-- The synergy cache key of `app.get('/api/synergy/:hero1/:hero2')`
(server.js): `synergy_${hero1.toLowerCase()}_${hero2.toLowerCase()}`. -/
def synergyCacheKey (hero1 hero2 : String) : String :=
  "synergy_" ++ lowerStr hero1 ++ "_" ++ lowerStr hero2

/-- The slice of hero data the analysis prompts and fallbacks consume. A
hero found in the store carries its name and role; the `|| { name }` stub
for an unknown name has no role, modelled as the empty string. -/
structure AIHero where
  name : String
  role : String
deriving DecidableEq

/-- `store.heroes.find(h => h.name?.toLowerCase() === name.toLowerCase())
|| { name }` (server.js). -/
def heroDataFor (store : Store) (name : String) : AIHero :=
  match store.heroes.find? (fun h => lowerStr h.name == lowerStr name) with
  | some h => { name := h.name, role := h.role }
  | none => { name := name, role := "" }

/-- The fixed-schema single-hero analysis report (ai.js). -/
structure AnalysisResult where
  overview : String
  playstyle : String
  strengths : List String
  weaknesses : List String
  earlyGame : String
  lateGame : String
  tips : List String
  metaRating : String
  difficulty : String
deriving DecidableEq

/-- The deterministic fallback of `analyzeHero` in the ai.js shipped inside
server.js (catch branch, lines 238-251). -/
def fallbackAnalysis (hero : AIHero) : AnalysisResult :=
  { overview := hero.name ++ " is a " ++
      (if hero.role = "" then "versatile" else hero.role) ++
      " hero in the current meta.",
    playstyle := "Focus on objectives and team coordination.",
    strengths := ["Strong kit", "Good scaling", "Team utility"],
    weaknesses := ["Situational", "Requires practice"],
    earlyGame := "Farm efficiently and secure early objectives.",
    lateGame := "Capitalize on power spikes and team fights.",
    tips := ["Master your skill combos", "Communicate with team", "Watch the minimap"],
    metaRating := "Solid pick in the current meta.",
    difficulty := "Medium" }

/-- `analyzeHero` (server.js lines 202-252): one backend attempt inside
`try`; any failure (network, timeout, unparsable text) lands in `catch`,
which returns the deterministic fallback. The attempt is modelled by its
outcome: `.ok` with the parsed report, or `.error`. -/
def analyzeHeroV1 (attempt : Except String AnalysisResult) (hero : AIHero) :
    Except String AnalysisResult :=
  match attempt with
  | .ok parsed => .ok parsed
  | .error _ => .ok (fallbackAnalysis hero)

/-- The fixed-schema two-hero synergy report (ai.js). -/
structure SynergyResult where
  synergyScore : Nat
  verdict : String
  comboPotential : String
  laneRecommendation : String
  strengths : List String
  weaknesses : List String
  counterStrategy : String
  tip : String
deriving DecidableEq

/-- The deterministic fallback of `analyzeSynergy` in the ai.js shipped
inside server.js (catch branch). -/
def fallbackSynergy (hero1 hero2 : AIHero) : SynergyResult :=
  { synergyScore := 65,
    verdict := hero1.name ++ " and " ++ hero2.name ++
      " can work well together with coordination.",
    comboPotential := "Combine abilities for maximum effect in team fights.",
    laneRecommendation := "Flexible lane assignments based on enemy picks.",
    strengths := ["Complementary kits", "Good team fight presence"],
    weaknesses := ["Requires coordination", "Can be countered"],
    counterStrategy := "Split push to avoid their team fight strength.",
    tip := "Communicate cooldowns before engaging." }

/-- `analyzeSynergy` (server.js): one backend attempt inside `try`, any
failure absorbed by `catch`, which returns the deterministic pair fallback. -/
def analyzeSynergyV1 (attempt : Except String SynergyResult) (hero1 hero2 : AIHero) :
    Except String SynergyResult :=
  match attempt with
  | .ok parsed => .ok parsed
  | .error _ => .ok (fallbackSynergy hero1 hero2)

/-- Responses of the analyze/synergy endpoints: a cache hit, a fresh success
envelope, or the HTTP 500 error envelope of the handler's catch branch. -/
inductive ApiResponse (α : Type) where
  | cacheHit (v : α)
  | ok (v : α)
  | serverError (msg : String)
deriving DecidableEq

/-- Whether a response is success-shaped (anything but the 500 envelope). -/
def isSuccessShaped {α : Type} : ApiResponse α → Bool
  | .serverError _ => false
  | _ => true

/-- `app.get('/api/analyze/:heroName')` (server.js): cache-first; on a miss,
call `analyzeHero` on the found-or-stub hero data inside `try`, cache and
answer on success, answer 500 if it throws. -/
def analyzeHandler (store : Store) (name : String)
    (cache : List (String × AnalysisResult))
    (attempt : Except String AnalysisResult) :
    ApiResponse AnalysisResult × List (String × AnalysisResult) :=
  let cacheKey := "ai_analysis_" ++ lowerStr name
  match cache.lookup cacheKey with
  | some cached => (.cacheHit cached, cache)
  | none =>
    match analyzeHeroV1 attempt (heroDataFor store name) with
    | .ok analysis => (.ok analysis, (cacheKey, analysis) :: cache)
    | .error e => (.serverError e, cache)

/-- `app.get('/api/synergy/:hero1/:hero2')` (server.js): cache-first on the
order-dependent key; on a miss, call `analyzeSynergy` inside `try`. The
returned `Bool` records whether the backend was consulted. -/
def synergyHandler (store : Store) (hero1 hero2 : String)
    (cache : List (String × SynergyResult))
    (attempt : Except String SynergyResult) :
    ApiResponse SynergyResult × List (String × SynergyResult) × Bool :=
  let cacheKey := synergyCacheKey hero1 hero2
  match cache.lookup cacheKey with
  | some cached => (.cacheHit cached, cache, false)
  | none =>
    match analyzeSynergyV1 attempt (heroDataFor store hero1) (heroDataFor store hero2) with
    | .ok syn => (.ok syn, (cacheKey, syn) :: cache, true)
    | .error e => (.serverError e, cache, true)

/-- `withRetry(fn, retries)` from ai.js (src/unnamed/part_002), unrolled on
the number of attempts still allowed after the current one. `behavior i` is
the outcome of the `i`-th invocation of `fn` (0-based). Returns the final
outcome, the number of invocations made, and the list of back-off waits in
milliseconds (`1000 * (i + 1)` after the failed attempt `i`). -/
def withRetryFrom {α : Type} (behavior : Nat → Except String α) (i : Nat) :
    Nat → Except String α × Nat × List Nat
  | 0 =>
    match behavior i with
    | .ok a => (.ok a, 1, [])
    | .error e => (.error e, 1, [])
  | remaining + 1 =>
    match behavior i with
    | .ok a => (.ok a, 1, [])
    | .error _ =>
      let rest := withRetryFrom behavior (i + 1) remaining
      (rest.1, rest.2.1 + 1, 1000 * (i + 1) :: rest.2.2)

/-- `withRetry(fn, retries)` started at attempt 0; ai.js defaults
`retries = 2`. -/
def withRetry {α : Type} (behavior : Nat → Except String α) (retries : Nat) :
    Except String α × Nat × List Nat :=
  withRetryFrom behavior 0 retries

/-- The deterministic fallback of `analyzeHero` in ai.js
(src/unnamed/part_002, catch branch, lines 62-72). -/
def fallbackAnalysisR (hero : AIHero) : AnalysisResult :=
  { overview := hero.name ++ " is a " ++
      (if hero.role = "" then "versatile" else hero.role) ++
      " hero in the current meta.",
    playstyle := "Focus on objectives and team coordination.",
    strengths := ["Strong kit", "Good scaling", "Team utility"],
    weaknesses := ["Situational", "Requires practice", "Item dependent"],
    earlyGame := "Farm efficiently and secure early objectives.",
    lateGame := "Capitalize on power spikes and teamfights.",
    tips := ["Master your skill combos", "Communicate with team", "Watch the minimap"],
    metaRating := "Solid pick in the current meta.",
    difficulty := "Medium" }

/-- `analyzeHero` from ai.js (src/unnamed/part_002): run the backend call
under `withRetry(fn)` with the default 2 retries; when even the last
attempt throws, the outer `catch` returns the deterministic fallback.
Besides the report, the invocation count and the back-off waits of the
retry loop are returned. -/
def analyzeHeroR (behavior : Nat → Except String AnalysisResult) (hero : AIHero) :
    AnalysisResult × Nat × List Nat :=
  let r := withRetry behavior 2
  (match r.1 with
   | .ok a => a
   | .error _ => fallbackAnalysisR hero, r.2.1, r.2.2)

/-- The ability-score block a hero-detail fetch reports (scraper.js). -/
structure HeroStats where
  durability : Nat
  offense : Nat
  control : Nat
  mobility : Nat
  support : Nat
deriving DecidableEq

/-- The record `scrapeHeroDetail` resolves to when the detail fetch
succeeds (scraper.js); a failed or unresolvable fetch yields `{}`,
modelled as `none` at the call sites. -/
structure DetailRec where
  name : String
  role : String
  description : String
  img : String
  stats : HeroStats
  build : List String
  counters : List String
  teammates : List String
deriving DecidableEq

/-- The merged object `{ ...(base || { name: slug }), ...detail }` of
`app.get('/api/heroes/:slug')` (server.js): every field is present exactly
when the spread that carries it contributed, and detail fields override
base fields of the same name. -/
structure FullDetail where
  name : String
  role : Option String
  winRate : Option String
  banRate : Option String
  pickRate : Option String
  tier : Option String
  img : Option String
  heroId : Option Nat
  rawWin : Option ℚ
  rawBan : Option ℚ
  rawPick : Option ℚ
  description : Option String
  stats : Option HeroStats
  build : Option (List String)
  counters : Option (List String)
  teammates : Option (List String)
deriving DecidableEq

/-- The JS object spread `{ ...(base || { name: slug }), ...detail }`. -/
def mergeDetail (slug : String) (base : Option Hero) (detail : Option DetailRec) :
    FullDetail :=
  match detail with
  | some d =>
    { name := d.name, role := some d.role, description := some d.description,
      img := some d.img, stats := some d.stats, build := some d.build,
      counters := some d.counters, teammates := some d.teammates,
      winRate := base.map Hero.winRate, banRate := base.map Hero.banRate,
      pickRate := base.map Hero.pickRate, tier := base.map Hero.tier,
      heroId := base.map Hero.heroId, rawWin := base.map Hero.rawWin,
      rawBan := base.map Hero.rawBan, rawPick := base.map Hero.rawPick }
  | none =>
    match base with
    | some b =>
      { name := b.name, role := some b.role, winRate := some b.winRate,
        banRate := some b.banRate, pickRate := some b.pickRate,
        tier := some b.tier, img := some b.img, heroId := some b.heroId,
        rawWin := some b.rawWin, rawBan := some b.rawBan,
        rawPick := some b.rawPick, description := none, stats := none,
        build := none, counters := none, teammates := none }
    | none =>
      { name := slug, role := none, winRate := none, banRate := none,
        pickRate := none, tier := none, img := none, heroId := none,
        rawWin := none, rawBan := none, rawPick := none, description := none,
        stats := none, build := none, counters := none, teammates := none }

/-- HTTP responses the detail endpoint could give. `notFound` stands for an
HTTP 404; it is part of the response space so that claim C9 can be stated,
the handler below never produces it. -/
inductive DetailResponse where
  | fromCache (v : FullDetail)
  | live (v : FullDetail)
  | notFound
deriving DecidableEq

/-- Whether a `DetailResponse` is the HTTP 404 response. -/
def isNotFound : DetailResponse → Bool
  | .notFound => true
  | _ => false

/-- `app.get('/api/heroes/:slug')` (server.js): lower-case the slug, serve
the cache entry when present, otherwise look up the base hero by
case-insensitive name, merge it (or the `{ name: slug }` stub) with the
detail-fetch outcome, cache and serve the result live. The returned `Bool`
records whether a live detail fetch was issued. -/
def heroDetailHandler (slugRaw : String) (store : Store)
    (cache : List (String × FullDetail)) (detail : Option DetailRec) :
    DetailResponse × List (String × FullDetail) × Bool :=
  let slug := lowerStr slugRaw
  let cacheKey := "hero_detail_" ++ slug
  match cache.lookup cacheKey with
  | some cached => (.fromCache cached, cache, false)
  | none =>
    let base := store.heroes.find? (fun h => lowerStr h.name == slug)
    let full := mergeDetail slug base detail
    (.live full, (cacheKey, full) :: cache, true)

/-- JS `String.prototype.includes`: substring containment. -/
def containsSub (s sub : String) : Bool := decide (sub.data <:+: s.data)

/-- The query parameters of `GET /api/heroes`. -/
structure HeroesQuery where
  role : Option String
  tier : Option String
  sort : Option String

/-- `app.get('/api/heroes')` (server.js): copy `store.heroes`, filter by
role substring and tier equality (both case-insensitive), sort the copy by
the requested raw metric, and answer with count, timestamp and data. The
store is returned alongside the response so that its preservation is part
of the handler's statement. -/
def heroesHandler (q : HeroesQuery) (s : Store) :
    Store × (Nat × Option String × List Hero) :=
  let hs0 := s.heroes
  let hs1 := match q.role with
    | some r => hs0.filter (fun h => containsSub (lowerStr h.role) (lowerStr r))
    | none => hs0
  let hs2 := match q.tier with
    | some t => hs1.filter (fun h => lowerStr h.tier == lowerStr t)
    | none => hs1
  let hs3 := if q.sort = some "winrate" then sortDescBy Hero.rawWin hs2 else hs2
  let hs4 := if q.sort = some "banrate" then sortDescBy Hero.rawBan hs3 else hs3
  let hs5 := if q.sort = some "pickrate" then sortDescBy Hero.rawPick hs4 else hs4
  (s, (hs5.length, s.lastUpdated, hs5))

/-- `app.get('/api/leaderboard')` (server.js): copy `store.leaderboard`,
filter by category substring (case-insensitive), slice to
`parseInt(limit) || 50` entries (a missing, unparsable or zero limit falls
back to 50 through JS `||`). -/
def leaderboardHandler (category : Option String) (lim : Option Nat) (s : Store) :
    Store × (Option String × List LBEntry) :=
  let data0 := s.leaderboard
  let data1 := match category with
    | some c => data0.filter (fun (e : LBEntry) => containsSub (lowerStr e.category) (lowerStr c))
    | none => data0
  let n := match lim with
    | some k => if k = 0 then 50 else k
    | none => 50
  (s, (s.lastUpdated, data1.take n))

/-- A concrete hero used to instantiate counterexamples and witnesses. -/
def sampleHero : Hero :=
  { heroId := 1, name := "Alice", role := "Mage", winRate := "52.0%",
    banRate := "1.0%", pickRate := "2.0%", tier := "A", img := "",
    rawWin := 52/100, rawBan := 1/100, rawPick := 2/100 }

/-- A store holding one successfully refreshed, non-empty snapshot. -/
def priorStore : Store :=
  { heroes := [sampleHero], tierList := buildTierList [sampleHero],
    leaderboard := buildLeaderboard [sampleHero], lastUpdated := some "t0",
    status := "ready" }

/-- The report contained in a non-error response. -/
def responseVal {α : Type} : ApiResponse α → Option α
  | .cacheHit v => some v
  | .ok v => some v
  | .serverError _ => none

/-- The cached full record used by the C9 witness. -/
def sampleFull : FullDetail := mergeDetail "ghost" none none

/-- A hero carrying a tier label outside the code's six known labels. -/
def heroX : Hero :=
  { heroId := 2, name := "Xena", role := "Tank", winRate := "—", banRate := "—",
    pickRate := "—", tier := "X", img := "", rawWin := 0, rawBan := 0, rawPick := 0 }

/-- A hero with the catch-all `Unranked` tier. -/
def heroU : Hero :=
  { heroId := 3, name := "Uno", role := "Mage", winRate := "—", banRate := "—",
    pickRate := "—", tier := "Unranked", img := "", rawWin := 0, rawBan := 0,
    rawPick := 0 }

/-- Claim C5: tier classification is a total pure function of the raw win
rate with the banding `≥ 56 → S+`, `≥ 53 → S`, `≥ 51 → A`, `≥ 49 → B`,
else `C` (on `rawWinRate * 100`), a missing rate giving `Unranked`; in
particular 0.565 → S+, 0.545 → S, 0.50 → B, 0.51 → A, 0.509 → B. -/
theorem C5_tier_banding :
    tierFromWinRate none = "Unranked" ∧
    (∀ w : ℚ, 56 ≤ w * 100 → tierFromWinRate (some w) = "S+") ∧
    (∀ w : ℚ, 53 ≤ w * 100 → w * 100 < 56 → tierFromWinRate (some w) = "S") ∧
    (∀ w : ℚ, 51 ≤ w * 100 → w * 100 < 53 → tierFromWinRate (some w) = "A") ∧
    (∀ w : ℚ, 49 ≤ w * 100 → w * 100 < 51 → tierFromWinRate (some w) = "B") ∧
    (∀ w : ℚ, w * 100 < 49 → tierFromWinRate (some w) = "C") ∧
    tierFromWinRate (some 0.565) = "S+" ∧
    tierFromWinRate (some 0.545) = "S" ∧
    tierFromWinRate (some 0.50) = "B" ∧
    tierFromWinRate (some 0.51) = "A" ∧
    tierFromWinRate (some 0.509) = "B" := by
  refine ⟨rfl, ?_, ?_, ?_, ?_, ?_, ?_, ?_, ?_, ?_, ?_⟩
  · intro w h1
    simp only [tierFromWinRate]
    rw [if_pos h1]
  · intro w h1 h2
    simp only [tierFromWinRate]
    rw [if_neg (not_le.mpr h2), if_pos h1]
  · intro w h1 h2
    simp only [tierFromWinRate]
    rw [if_neg (not_le.mpr (lt_trans h2 (by norm_num))),
      if_neg (not_le.mpr h2), if_pos h1]
  · intro w h1 h2
    simp only [tierFromWinRate]
    rw [if_neg (not_le.mpr (lt_trans h2 (by norm_num))),
      if_neg (not_le.mpr (lt_trans h2 (by norm_num))),
      if_neg (not_le.mpr h2), if_pos h1]
  · intro w h1
    simp only [tierFromWinRate]
    rw [if_neg (not_le.mpr (lt_trans h1 (by norm_num))),
      if_neg (not_le.mpr (lt_trans h1 (by norm_num))),
      if_neg (not_le.mpr (lt_trans h1 (by norm_num))),
      if_neg (not_le.mpr h1)]
  all_goals norm_num [tierFromWinRate]

/-- Witness for C5 at the concrete rate 0.57. -/
theorem C5_tier_banding_witness :
    (56 : ℚ) ≤ 0.57 * 100 ∧ tierFromWinRate (some 0.57) = "S+" :=
  ⟨by norm_num, C5_tier_banding.2.1 0.57 (by norm_num)⟩

/-- Claim C1 is false on the code: a refresh whose fetch resolves with zero
entities while a prior non-empty snapshot exists leaves the store in status
`ready` (not `stale`) and replaces the prior entity list with the empty
list (instead of preserving it). -/
theorem C1_counterexample :
    priorStore.heroes = [sampleHero] ∧
    priorStore.status = "ready" ∧
    (runScrape priorStore (.ok []) "t1").1.status = "ready" ∧
    (runScrape priorStore (.ok []) "t1").1.heroes = [] :=
  ⟨rfl, rfl, rfl, rfl⟩

/-- Amended claim C1: `runScrape` treats any resolved fetch — even one with
zero entities — as success, replacing the snapshot and setting status
`ready`; only a rejected fetch sets status `error`, in which case the prior
entity list (and every other snapshot field) is preserved unchanged
regardless of whether any prior refresh succeeded. The code has no `stale`
status and no failure counter. -/
theorem C1_amended (s : Store) (hs : List Hero) (e now : String) :
    (runScrape s (.ok hs) now).1.status = "ready" ∧
    (runScrape s (.ok hs) now).1.heroes = hs ∧
    (runScrape s (.error e) now).1.status = "error" ∧
    (runScrape s (.error e) now).1.heroes = s.heroes ∧
    (runScrape s (.error e) now).1 = { s with status := "error" } :=
  ⟨rfl, rfl, rfl, rfl, rfl⟩

/-- Claim C2 is false on the code: a manual trigger with the correct secret
issued while a refresh is already in flight is acknowledged with the
success response (not a 409 conflict) and starts a second refresh, so two
refreshes execute concurrently. -/
theorem C2_counterexample :
    scrapeHandler (some "sec") (some "sec") = (.started, true) ∧
    isConflict (scrapeHandler (some "sec") (some "sec")).1 = false ∧
    refreshesAfter true (scrapeHandler (some "sec") (some "sec")).2 = 2 := by
  refine ⟨?_, ?_, ?_⟩ <;> decide

/-- Amended claim C2: the manual-trigger endpoint checks only the shared
secret; it never answers 409, a matching secret is always acknowledged and
always starts a refresh (even while one is in flight), and a mismatch is
rejected with 401 and starts nothing. -/
theorem C2_amended (h c : Option String) :
    isConflict (scrapeHandler h c).1 = false ∧
    (h = c → scrapeHandler h c = (.started, true)) ∧
    (h ≠ c → scrapeHandler h c = (.unauthorized, false)) := by
  by_cases hc : h = c
  · exact ⟨by simp [scrapeHandler, hc, isConflict], fun _ => by simp [scrapeHandler, hc],
      fun hne => absurd hc hne⟩
  · exact ⟨by simp [scrapeHandler, hc, isConflict], fun heq => absurd heq hc,
      fun _ => by simp [scrapeHandler, hc]⟩

/-- Witness for C2 at concrete secrets: matching and mismatching headers. -/
theorem C2_amended_witness :
    scrapeHandler (some "k") (some "k") = (.started, true) ∧
    scrapeHandler none (some "k") = (.unauthorized, false) :=
  ⟨(C2_amended (some "k") (some "k")).2.1 rfl,
   (C2_amended none (some "k")).2.2 (by decide)⟩

/-- Claim C3 is false on the code: the synergy cache key concatenates the
lowercased names in argument order without sorting, so `Alice, Bob` and
`Bob, Alice` use different keys, and the reversed call right after the
first one consults the backend again instead of hitting the cache. -/
theorem C3_counterexample :
    synergyCacheKey "Alice" "Bob" = "synergy_alice_bob" ∧
    synergyCacheKey "Bob" "Alice" = "synergy_bob_alice" ∧
    ((synergyCacheKey "Alice" "Bob" == synergyCacheKey "Bob" "Alice") = false) ∧
    (synergyHandler initialStore "Bob" "Alice"
        (synergyHandler initialStore "Alice" "Bob" [] (.error "down")).2.1
        (.error "down")).2.2 = true := by
  refine ⟨rfl, rfl, ?_, ?_⟩ <;> decide


/-- Amended claim C3: the synergy cache key is the order-sensitive
concatenation of the lowercased names; only a repeated call in the same
argument order is guaranteed to resolve to the same cache entry — such a
repeat returns the first call's content without another backend call. -/
theorem C3_amended (store : Store) (cache : List (String × SynergyResult))
    (A B : String) (att att2 : Except String SynergyResult) :
    synergyCacheKey A B = "synergy_" ++ lowerStr A ++ "_" ++ lowerStr B ∧
    (synergyHandler store A B ((synergyHandler store A B cache att).2.1) att2).2.2 = false ∧
    (synergyHandler store A B ((synergyHandler store A B cache att).2.1) att2).2.1 =
      (synergyHandler store A B cache att).2.1 ∧
    responseVal (synergyHandler store A B ((synergyHandler store A B cache att).2.1) att2).1 =
      responseVal (synergyHandler store A B cache att).1 := by
  refine ⟨rfl, ?_, ?_, ?_⟩ <;>
  · cases hcl : List.lookup (synergyCacheKey A B) cache with
    | some v => simp [synergyHandler, hcl, responseVal]
    | none =>
      cases att with
      | ok p => simp [synergyHandler, hcl, analyzeSynergyV1, responseVal, List.lookup]
      | error e => simp [synergyHandler, hcl, analyzeSynergyV1, responseVal, List.lookup]

/-- Claim C4: for every cache state and every backend behaviour, the
analyze and synergy handlers return a success-shaped response — the 500
branch is unreachable because `analyzeHero`/`analyzeSynergy` absorb every
failure internally and return `.ok` (fallback content at worst). -/
theorem C4_success_shaped (store : Store) (name hero1 hero2 : String)
    (cacheA : List (String × AnalysisResult)) (cacheS : List (String × SynergyResult))
    (attA : Except String AnalysisResult) (attS : Except String SynergyResult)
    (hA hB : AIHero) :
    (analyzeHeroV1 attA hA).isOk = true ∧
    (analyzeSynergyV1 attS hA hB).isOk = true ∧
    isSuccessShaped (analyzeHandler store name cacheA attA).1 = true ∧
    isSuccessShaped (synergyHandler store hero1 hero2 cacheS attS).1 = true := by
  refine ⟨?_, ?_, ?_, ?_⟩
  · cases attA <;> rfl
  · cases attS <;> rfl
  · cases hcl : List.lookup ("ai_analysis_" ++ lowerStr name) cacheA with
    | some v => simp [analyzeHandler, hcl, isSuccessShaped]
    | none =>
      cases attA with
      | ok p => simp [analyzeHandler, hcl, analyzeHeroV1, isSuccessShaped]
      | error e => simp [analyzeHandler, hcl, analyzeHeroV1, isSuccessShaped]
  · cases hcl : List.lookup (synergyCacheKey hero1 hero2) cacheS with
    | some v => simp [synergyHandler, hcl, isSuccessShaped]
    | none =>
      cases attS with
      | ok p => simp [synergyHandler, hcl, analyzeSynergyV1, isSuccessShaped]
      | error e => simp [synergyHandler, hcl, analyzeSynergyV1, isSuccessShaped]

/-- Claim C8: `analyzeHero` invokes the backend at most 3 times (initial
attempt plus up to 2 retries), waits 1000 ms before the first retry and
2000 ms before the second, and returns the deterministic templated
fallback when all three attempts fail. -/
theorem C8_retry_bound (behavior : Nat → Except String AnalysisResult) (hero : AIHero) :
    (analyzeHeroR behavior hero).2.1 ≤ 3 ∧
    (analyzeHeroR behavior hero).2.2 =
      [1000, 2000].take ((analyzeHeroR behavior hero).2.1 - 1) ∧
    ((behavior 0).isOk = false → (behavior 1).isOk = false → (behavior 2).isOk = false →
      (analyzeHeroR behavior hero).1 = fallbackAnalysisR hero ∧
      (analyzeHeroR behavior hero).2.1 = 3) := by
  refine ⟨?_, ?_, ?_⟩
  · cases h0 : behavior 0 with
    | ok a0 => simp [analyzeHeroR, withRetry, withRetryFrom, h0]
    | error e0 =>
      cases h1 : behavior 1 with
      | ok a1 => simp [analyzeHeroR, withRetry, withRetryFrom, h0, h1]
      | error e1 =>
        cases h2 : behavior 2 with
        | ok a2 => simp [analyzeHeroR, withRetry, withRetryFrom, h0, h1, h2]
        | error e2 => simp [analyzeHeroR, withRetry, withRetryFrom, h0, h1, h2]
  · cases h0 : behavior 0 with
    | ok a0 => simp [analyzeHeroR, withRetry, withRetryFrom, h0]
    | error e0 =>
      cases h1 : behavior 1 with
      | ok a1 => simp [analyzeHeroR, withRetry, withRetryFrom, h0, h1]
      | error e1 =>
        cases h2 : behavior 2 with
        | ok a2 => simp [analyzeHeroR, withRetry, withRetryFrom, h0, h1, h2]
        | error e2 => simp [analyzeHeroR, withRetry, withRetryFrom, h0, h1, h2]
  · intro f0 f1 f2
    cases h0 : behavior 0 with
    | ok a0 => rw [h0] at f0; simp [Except.isOk, Except.toBool] at f0
    | error e0 =>
      cases h1 : behavior 1 with
      | ok a1 => rw [h1] at f1; simp [Except.isOk, Except.toBool] at f1
      | error e1 =>
        cases h2 : behavior 2 with
        | ok a2 => rw [h2] at f2; simp [Except.isOk, Except.toBool] at f2
        | error e2 =>
          constructor <;> simp [analyzeHeroR, withRetry, withRetryFrom, h0, h1, h2]

/-- Witness for C8: a backend that always fails is called exactly 3 times
with waits of 1000 ms and 2000 ms and yields the fallback report. -/
theorem C8_retry_bound_witness :
    ((fun _ => Except.error "down" : Nat → Except String AnalysisResult) 0).isOk = false ∧
    (analyzeHeroR (fun _ => Except.error "down") { name := "Alice", role := "Mage" }).1 =
      fallbackAnalysisR { name := "Alice", role := "Mage" } ∧
    (analyzeHeroR (fun _ => Except.error "down") { name := "Alice", role := "Mage" }).2.1 = 3 :=
  ⟨rfl,
   ((C8_retry_bound (fun _ => Except.error "down") { name := "Alice", role := "Mage" }).2.2
      rfl rfl rfl).1,
   ((C8_retry_bound (fun _ => Except.error "down") { name := "Alice", role := "Mage" }).2.2
      rfl rfl rfl).2⟩


/-- Claim C9 is false on the code: a slug matching no entity in the
snapshot is not rejected with 404 — the handler answers 200 with a live
record built from the `{ name: slug }` stub merged with the (empty) detail
fetch. -/
theorem C9_counterexample :
    (heroDetailHandler "Ghost" initialStore [] none).1 =
      .live (mergeDetail "ghost" none none) ∧
    isNotFound (heroDetailHandler "Ghost" initialStore [] none).1 = false ∧
    (mergeDetail "ghost" none none).name = "ghost" ∧
    initialStore.heroes = [] := by
  refine ⟨?_, ?_, ?_, ?_⟩ <;> decide

/-- Amended claim C9: the detail endpoint never answers 404; it is
cache-first for every slug (a cached record is served without issuing a
live fetch), and on a cache miss it serves, live, the base entity found by
case-insensitive name — or the `{ name: slug }` stub when none matches —
merged with the detail-fetch outcome. -/
theorem C9_amended (slugRaw : String) (store : Store)
    (cache : List (String × FullDetail)) (detail : Option DetailRec) (v : FullDetail) :
    isNotFound (heroDetailHandler slugRaw store cache detail).1 = false ∧
    (List.lookup ("hero_detail_" ++ lowerStr slugRaw) cache = some v →
      heroDetailHandler slugRaw store cache detail = (.fromCache v, cache, false)) ∧
    (List.lookup ("hero_detail_" ++ lowerStr slugRaw) cache = none →
      heroDetailHandler slugRaw store cache detail =
        (.live (mergeDetail (lowerStr slugRaw)
            (store.heroes.find? (fun h => lowerStr h.name == lowerStr slugRaw)) detail),
         ("hero_detail_" ++ lowerStr slugRaw,
          mergeDetail (lowerStr slugRaw)
            (store.heroes.find? (fun h => lowerStr h.name == lowerStr slugRaw)) detail) :: cache,
         true)) := by
  refine ⟨?_, ?_, ?_⟩
  · cases hcl : List.lookup ("hero_detail_" ++ lowerStr slugRaw) cache with
    | some w => simp [heroDetailHandler, hcl, isNotFound]
    | none => simp [heroDetailHandler, hcl, isNotFound]
  · intro hcl
    simp [heroDetailHandler, hcl]
  · intro hcl
    simp [heroDetailHandler, hcl]

/-- Witness for C9: a cached record for `ghost` is served from the cache,
and with an empty cache the same slug is served live. -/
theorem C9_amended_witness :
    heroDetailHandler "Ghost" initialStore [("hero_detail_ghost", sampleFull)] none =
      (.fromCache sampleFull, [("hero_detail_ghost", sampleFull)], false) ∧
    heroDetailHandler "Ghost" initialStore [] none =
      (.live (mergeDetail "ghost" none none),
       [("hero_detail_ghost", mergeDetail "ghost" none none)], true) := by
  constructor
  · exact (C9_amended "Ghost" initialStore [("hero_detail_ghost", sampleFull)] none
      sampleFull).2.1 (by decide)
  · have h := (C9_amended "Ghost" initialStore [] none sampleFull).2.2 (by decide)
    simpa using h

/-- Claim C10: read handlers never mutate the snapshot — for every query,
`GET /api/heroes` and `GET /api/leaderboard` filter and sort copies, and
the store (in particular `store.heroes` and `store.leaderboard`, contents
and order) is exactly what it was before the request. -/
theorem C10_reads_preserve_store (q : HeroesQuery) (category : Option String)
    (lim : Option Nat) (s : Store) :
    (heroesHandler q s).1 = s ∧
    (heroesHandler q s).1.heroes = s.heroes ∧
    (leaderboardHandler category lim s).1 = s ∧
    (leaderboardHandler category lim s).1.leaderboard = s.leaderboard :=
  ⟨rfl, rfl, rfl, rfl⟩

/-- Each index-carrying step emits exactly one entry per hero. -/
theorem topEntries_length (category : String) (stat : Hero → String) :
    ∀ (i : Nat) (l : List Hero), (topEntries category stat i l).length = l.length := by
  intro i l
  induction l generalizing i with
  | nil => rfl
  | cons h rest ih => simp [topEntries, ih]

/-- The ranks emitted from index `i` are `i + 1, i + 2, ...` with no gaps. -/
theorem topEntries_map_rank (category : String) (stat : Hero → String) :
    ∀ (l : List Hero) (i : Nat),
      (topEntries category stat i l).map LBEntry.rank = List.range' (i + 1) l.length := by
  intro l
  induction l with
  | nil => intro i; rfl
  | cons h rest ih =>
    intro i
    simp only [topEntries, List.map_cons, List.length_cons, List.range'_succ, mkLBEntry,
      ih (i + 1)]

/-- The entries emitted from index `i` carry the heroes' names in order. -/
theorem topEntries_map_name (category : String) (stat : Hero → String) :
    ∀ (l : List Hero) (i : Nat),
      (topEntries category stat i l).map LBEntry.name = l.map Hero.name := by
  intro l
  induction l with
  | nil => intro i; rfl
  | cons h rest ih =>
    intro i
    simp only [topEntries, List.map_cons, mkLBEntry, ih (i + 1)]

/-- A category slice has `min 10 n` entries. -/
theorem top_length (arr : List Hero) (category : String) (stat : Hero → String) :
    (top arr category stat).length = min 10 arr.length := by
  rw [top, topEntries_length, List.length_take]

/-- A category slice's ranks are exactly `1, ..., min 10 n`. -/
theorem top_map_rank (arr : List Hero) (category : String) (stat : Hero → String) :
    (top arr category stat).map LBEntry.rank = List.range' 1 (min 10 arr.length) := by
  rw [top, topEntries_map_rank, List.length_take]

/-- A category slice carries the first ten heroes' names in order. -/
theorem top_map_name (arr : List Hero) (category : String) (stat : Hero → String) :
    (top arr category stat).map LBEntry.name = (arr.take 10).map Hero.name := by
  rw [top, topEntries_map_name]

/-- `sortDescBy` sorts by the comparator's descending order. -/
theorem sortDescBy_sorted (key : Hero → ℚ) (hs : List Hero) :
    (sortDescBy key hs).Sorted (descBy key) := by
  haveI : IsTotal Hero (descBy key) := ⟨fun a b => le_total (key b) (key a)⟩
  haveI : IsTrans Hero (descBy key) := ⟨fun _ _ _ h1 h2 => le_trans h2 h1⟩
  exact List.sorted_insertionSort _ _

/-- Sorting a copy does not change the number of heroes. -/
theorem sortDescBy_length (key : Hero → ℚ) (hs : List Hero) :
    (sortDescBy key hs).length = hs.length :=
  List.length_insertionSort _ _

/-- Claim C6: `buildLeaderboard` returns exactly `3 × min 10 n` entries —
the win, ban and pick category slices concatenated in that fixed order —
each slice drawn from the hero list sorted descending by the corresponding
raw metric, with ranks `1, 2, ...` with no gaps. -/
theorem C6_buildLeaderboard (hs : List Hero) :
    (buildLeaderboard hs).length = 3 * min 10 hs.length ∧
    buildLeaderboard hs =
      top (sortDescBy Hero.rawWin hs) "Top Win Rate" Hero.winRate ++
      top (sortDescBy Hero.rawBan hs) "Most Banned" Hero.banRate ++
      top (sortDescBy Hero.rawPick hs) "Most Picked" Hero.pickRate ∧
    (top (sortDescBy Hero.rawWin hs) "Top Win Rate" Hero.winRate).map LBEntry.rank =
      List.range' 1 (min 10 hs.length) ∧
    (top (sortDescBy Hero.rawBan hs) "Most Banned" Hero.banRate).map LBEntry.rank =
      List.range' 1 (min 10 hs.length) ∧
    (top (sortDescBy Hero.rawPick hs) "Most Picked" Hero.pickRate).map LBEntry.rank =
      List.range' 1 (min 10 hs.length) ∧
    ((sortDescBy Hero.rawWin hs).take 10).Sorted (descBy Hero.rawWin) ∧
    ((sortDescBy Hero.rawBan hs).take 10).Sorted (descBy Hero.rawBan) ∧
    ((sortDescBy Hero.rawPick hs).take 10).Sorted (descBy Hero.rawPick) ∧
    (top (sortDescBy Hero.rawWin hs) "Top Win Rate" Hero.winRate).map LBEntry.name =
      ((sortDescBy Hero.rawWin hs).take 10).map Hero.name ∧
    (top (sortDescBy Hero.rawBan hs) "Most Banned" Hero.banRate).map LBEntry.name =
      ((sortDescBy Hero.rawBan hs).take 10).map Hero.name ∧
    (top (sortDescBy Hero.rawPick hs) "Most Picked" Hero.pickRate).map LBEntry.name =
      ((sortDescBy Hero.rawPick hs).take 10).map Hero.name := by
  refine ⟨?_, rfl, ?_, ?_, ?_, ?_, ?_, ?_, ?_, ?_, ?_⟩
  · simp only [buildLeaderboard, List.length_append, top_length, sortDescBy_length]
    omega
  · rw [top_map_rank, sortDescBy_length]
  · rw [top_map_rank, sortDescBy_length]
  · rw [top_map_rank, sortDescBy_length]
  · exact (sortDescBy_sorted Hero.rawWin hs).sublist (List.take_sublist 10 _)
  · exact (sortDescBy_sorted Hero.rawBan hs).sublist (List.take_sublist 10 _)
  · exact (sortDescBy_sorted Hero.rawPick hs).sublist (List.take_sublist 10 _)
  · exact top_map_name _ _ _
  · exact top_map_name _ _ _
  · exact top_map_name _ _ _



/-- Claim C7 is false on the code: the code's fixed-priority list contains
six labels (it includes `Unranked`), so when an extension label is seen
before `Unranked`, `Unranked` still renders first — the remaining labels
are not emitted in first-seen order as the claim asserts. -/
theorem C7_counterexample :
    buildTierList [heroX, heroU] = [("Unranked", ["Uno"]), ("X", ["Xena"])] ∧
    specTierKeyOrder [heroX, heroU] = ["X", "Unranked"] ∧
    (((buildTierList [heroX, heroU]).map Prod.fst == specTierKeyOrder [heroX, heroU]) = false) := by
  refine ⟨?_, ?_, ?_⟩ <;> decide

/-- Upserting a key either leaves the key list unchanged or appends the new
key at the end. -/
theorem upsert_keys (m : List (String × List String)) (k v : String) :
    (upsert m k v).map Prod.fst =
      if k ∈ m.map Prod.fst then m.map Prod.fst else m.map Prod.fst ++ [k] := by
  induction m with
  | nil => simp [upsert]
  | cons p rest ih =>
    obtain ⟨k0, vs⟩ := p
    by_cases hk : k0 = k
    · subst hk
      simp [upsert]
    · have hk9 : ¬k = k0 := fun h => hk h.symm
      simp only [upsert, if_neg hk, List.map_cons]
      rw [ih]
      by_cases hmem : k ∈ rest.map Prod.fst
      · simp [hmem, hk9]
      · simp [hmem, hk9]

/-- The key list of the grouping fold is the first-seen fold of the tier
labels. -/
theorem foldl_upsert_keys (hs : List Hero) : ∀ m : List (String × List String),
    ((hs.foldl (fun m h => upsert m h.tier h.name) m).map Prod.fst) =
      (hs.map Hero.tier).foldl (fun acc t => if t ∈ acc then acc else acc ++ [t])
        (m.map Prod.fst) := by
  induction hs with
  | nil => intro m; rfl
  | cons h rest ih =>
    intro m
    simp only [List.foldl_cons, List.map_cons]
    rw [ih, upsert_keys]

/-- The keys of `groupTiers` are the tier labels in first-seen order. -/
theorem groupTiers_keys (hs : List Hero) :
    (groupTiers hs).map Prod.fst = firstSeenKeys (hs.map Hero.tier) :=
  foldl_upsert_keys hs []

/-- Membership in the first-seen fold. -/
theorem foldl_firstSeen_mem (x : String) : ∀ (l acc : List String),
    (x ∈ l.foldl (fun acc t => if t ∈ acc then acc else acc ++ [t]) acc) ↔
      x ∈ acc ∨ x ∈ l := by
  intro l
  induction l with
  | nil => intro acc; simp
  | cons t rest ih =>
    intro acc
    rw [List.foldl_cons]
    by_cases ht : t ∈ acc
    · rw [if_pos ht, ih]
      constructor
      · rintro (hx | hx)
        · exact Or.inl hx
        · exact Or.inr (List.mem_cons_of_mem t hx)
      · rintro (hx | hx)
        · exact Or.inl hx
        · rcases List.mem_cons.mp hx with h1 | h1
          · exact Or.inl (h1 ▸ ht)
          · exact Or.inr h1
    · rw [if_neg ht, ih]
      simp only [List.mem_append, List.mem_singleton, List.mem_cons]
      tauto

/-- The first-seen fold keeps its accumulator duplicate-free. -/
theorem foldl_firstSeen_nodup : ∀ (l acc : List String), acc.Nodup →
    (l.foldl (fun acc t => if t ∈ acc then acc else acc ++ [t]) acc).Nodup := by
  intro l
  induction l with
  | nil => intro acc h; exact h
  | cons t rest ih =>
    intro acc h
    rw [List.foldl_cons]
    by_cases ht : t ∈ acc
    · rw [if_pos ht]; exact ih acc h
    · rw [if_neg ht]
      refine ih _ (h.append (List.nodup_singleton t) ?_)
      intro a ha hb
      rw [List.mem_singleton] at hb
      exact ht (hb ▸ ha)

/-- `firstSeenKeys` emits no duplicates. -/
theorem firstSeenKeys_nodup (l : List String) : (firstSeenKeys l).Nodup :=
  foldl_firstSeen_nodup l [] List.nodup_nil

/-- `firstSeenKeys` emits exactly the labels that occur. -/
theorem firstSeenKeys_mem (x : String) (l : List String) :
    x ∈ firstSeenKeys l ↔ x ∈ l := by
  rw [firstSeenKeys, foldl_firstSeen_mem]
  simp

/-- Upserting key `k` sets the `k`-bucket to its previous content (empty
when absent) with `v` appended. -/
theorem getBucket_upsert_self (m : List (String × List String)) (k v : String) :
    getBucket (upsert m k v) k = some ((getBucket m k).getD [] ++ [v]) := by
  induction m with
  | nil => simp [upsert, getBucket, List.find?]
  | cons p rest ih =>
    obtain ⟨k0, vs⟩ := p
    by_cases hk : k0 = k
    · subst hk
      simp [upsert, getBucket, List.find?]
    · have hbeq : (k0 == k) = false := by simp [hk]
      simp only [upsert, if_neg hk, getBucket] at ih ⊢
      rw [List.find?_cons_of_neg _ (by simp [hbeq]), List.find?_cons_of_neg _ (by simp [hbeq])]
      exact ih

/-- Upserting key `k` leaves every other bucket unchanged. -/
theorem getBucket_upsert_other (m : List (String × List String)) (k v q : String)
    (hq : k ≠ q) : getBucket (upsert m k v) q = getBucket m q := by
  induction m with
  | nil =>
    have hbeq : (k == q) = false := by simp [hq]
    simp [upsert, getBucket, List.find?, hbeq]
  | cons p rest ih =>
    obtain ⟨k0, vs⟩ := p
    by_cases hk : k0 = k
    · subst hk
      have hbeq : (k0 == q) = false := by simp [hq]
      simp [upsert, getBucket, List.find?, hbeq]
    · by_cases hq0 : k0 = q
      · subst hq0
        simp [upsert, if_neg hk, getBucket, List.find?]
      · have hbeq : (k0 == q) = false := by simp [hq0]
        simp only [upsert, if_neg hk, getBucket] at ih ⊢
        simp only [List.find?, hbeq]
        exact ih

/-- The grouping fold appends, to whatever bucket the accumulator already
holds for `t`, exactly the names of the processed heroes whose tier is `t`,
in input order. -/
theorem foldl_bucket_val (t : String) : ∀ (hs : List Hero) (m : List (String × List String)),
    (getBucket (hs.foldl (fun m h => upsert m h.tier h.name) m) t).getD [] =
      (getBucket m t).getD [] ++ ((hs.filter (fun h => h.tier == t)).map Hero.name) := by
  intro hs
  induction hs with
  | nil => intro m; simp
  | cons h rest ih =>
    intro m
    rw [List.foldl_cons]
    by_cases ht : h.tier = t
    · rw [ih]
      have hb : getBucket (upsert m h.tier h.name) t =
          some ((getBucket m t).getD [] ++ [h.name]) := by
        rw [← ht]
        exact getBucket_upsert_self m h.tier h.name
      rw [hb]
      have hf : (h :: rest).filter (fun h0 => h0.tier == t) =
          h :: rest.filter (fun h0 => h0.tier == t) := by
        simp [List.filter_cons, ht]
      rw [hf]
      simp
    · rw [ih, getBucket_upsert_other m h.tier h.name t ht]
      have hf : (h :: rest).filter (fun h0 => h0.tier == t) =
          rest.filter (fun h0 => h0.tier == t) := by
        simp [List.filter_cons, ht]
      rw [hf]

/-- The grouping fold has a bucket for `t` exactly when the accumulator
already had one or some processed hero has tier `t`. -/
theorem foldl_bucket_isSome (t : String) : ∀ (hs : List Hero) (m : List (String × List String)),
    (getBucket (hs.foldl (fun m h => upsert m h.tier h.name) m) t).isSome =
      ((getBucket m t).isSome || !((hs.filter (fun h => h.tier == t)).isEmpty)) := by
  intro hs
  induction hs with
  | nil => intro m; simp
  | cons h rest ih =>
    intro m
    rw [List.foldl_cons]
    by_cases ht : h.tier = t
    · rw [ih]
      have hb : getBucket (upsert m h.tier h.name) t =
          some ((getBucket m t).getD [] ++ [h.name]) := by
        rw [← ht]
        exact getBucket_upsert_self m h.tier h.name
      have hf : (h :: rest).filter (fun h0 => h0.tier == t) =
          h :: rest.filter (fun h0 => h0.tier == t) := by
        simp [List.filter_cons, ht]
      rw [hb, hf]
      simp [List.isEmpty]
    · rw [ih, getBucket_upsert_other m h.tier h.name t ht]
      have hf : (h :: rest).filter (fun h0 => h0.tier == t) =
          rest.filter (fun h0 => h0.tier == t) := by
        simp [List.filter_cons, ht]
      rw [hf]

/-- The `t`-bucket of `groupTiers` holds the names of the heroes with tier
`t`, in input order. -/
theorem groupTiers_bucket_val (hs : List Hero) (t : String) :
    (getBucket (groupTiers hs) t).getD [] =
      (hs.filter (fun h => h.tier == t)).map Hero.name := by
  have := foldl_bucket_val t hs []
  simpa [groupTiers, getBucket, List.find?] using this

/-- `groupTiers` has a `t`-bucket exactly when some hero has tier `t`. -/
theorem groupTiers_bucket_isSome (hs : List Hero) (t : String) :
    (getBucket (groupTiers hs) t).isSome =
      !((hs.filter (fun h => h.tier == t)).isEmpty) := by
  have := foldl_bucket_isSome t hs []
  simpa [groupTiers, getBucket, List.find?] using this

/-- In a map with duplicate-free keys, a member pair is what key search
finds. -/
theorem find?_eq_of_mem_nodup : ∀ (m : List (String × List String)) (t : String)
    (l : List String), (m.map Prod.fst).Nodup → (t, l) ∈ m →
    List.find? (fun p => p.1 == t) m = some (t, l) := by
  intro m
  induction m with
  | nil => intro t l _ hm; cases hm
  | cons p rest ih =>
    intro t l hnd hm
    obtain ⟨k0, vs⟩ := p
    rcases List.mem_cons.mp hm with he | hm9
    · obtain ⟨rfl, rfl⟩ := Prod.mk.injEq .. ▸ he
      exact List.find?_cons_of_pos _ (by simp)
    · have hk0 : (k0 == t) = false := by
        have hnin : k0 ∉ rest.map Prod.fst := (List.nodup_cons.mp (by simpa using hnd)).1
        have htin : t ∈ rest.map Prod.fst :=
          List.mem_map.mpr ⟨(t, l), hm9, rfl⟩
        simp only [beq_eq_false_iff_ne, ne_eq]
        intro he0
        exact hnin (he0 ▸ htin)
      rw [List.find?_cons_of_neg _ (by simp [hk0])]
      exact ih t l (List.nodup_cons.mp (by simpa using hnd)).2 hm9

/-- Every pair of `groupTiers` is the bucket its key resolves to. -/
theorem mem_groupTiers_bucket (hs : List Hero) (t : String) (l : List String)
    (hm : (t, l) ∈ groupTiers hs) : getBucket (groupTiers hs) t = some l := by
  have hnd : ((groupTiers hs).map Prod.fst).Nodup := by
    rw [groupTiers_keys]
    exact firstSeenKeys_nodup _
  rw [getBucket, find?_eq_of_mem_nodup _ t l hnd hm]
  rfl

/-- The key list of the priority pass of `buildTierList`. -/
theorem filterMap_keys (l : List String) (g : String → Option (List String)) :
    (l.filterMap (fun t => (g t).map (fun vs => (t, vs)))).map Prod.fst =
      l.filter (fun t => (g t).isSome) := by
  induction l with
  | nil => rfl
  | cons t rest ih =>
    cases hg : g t with
    | none => simp [List.filterMap_cons, List.filter_cons, hg, ih]
    | some vs => simp [List.filterMap_cons, List.filter_cons, hg, ih]

/-- Filtering pairs on a key predicate commutes with taking keys. -/
theorem map_fst_filter (m : List (String × List String)) (q : String → Bool) :
    (m.filter (fun p => q p.1)).map Prod.fst = (m.map Prod.fst).filter q := by
  induction m with
  | nil => rfl
  | cons p rest ih =>
    obtain ⟨k0, vs⟩ := p
    by_cases hq : q k0
    · simp [List.filter_cons, hq, ih]
    · simp [List.filter_cons, hq, ih]

/-- A label has a bucket exactly when it occurs among the tier labels. -/
theorem bucket_isSome_eq_contains (hs : List Hero) (t : String) :
    (getBucket (groupTiers hs) t).isSome = (hs.map Hero.tier).contains t := by
  rw [groupTiers_bucket_isSome]
  rcases hf : hs.filter (fun h => h.tier == t) with _ | ⟨h0, rest⟩
  · have hall := List.filter_eq_nil_iff.mp hf
    have hnm : t ∉ hs.map Hero.tier := by
      intro hmem
      rcases List.mem_map.mp hmem with ⟨h1, hh1, ht1⟩
      exact hall h1 hh1 (by simp [ht1])
    simp [hf, List.isEmpty, List.contains, List.elem_eq_mem, hnm]
  · have hh0 : h0 ∈ hs.filter (fun h => h.tier == t) := by
      rw [hf]
      exact List.mem_cons_self _ _
    have hsplit := List.mem_filter.mp hh0
    have hmem : t ∈ hs.map Hero.tier :=
      List.mem_map.mpr ⟨h0, hsplit.1, by simpa using hsplit.2⟩
    simp [hf, List.isEmpty, List.contains, List.elem_eq_mem, hmem]

/-- The key order `buildTierList` emits: present fixed-order labels (all
six, `Unranked` included) first, then the remaining labels first-seen. -/
theorem buildTierList_keys (hs : List Hero) :
    (buildTierList hs).map Prod.fst =
      tierOrder.filter (fun t => (hs.map Hero.tier).contains t) ++
        (firstSeenKeys (hs.map Hero.tier)).filter (fun t => !(tierOrder.contains t)) := by
  simp only [buildTierList, List.map_append]
  rw [filterMap_keys, map_fst_filter (groupTiers hs) (fun t => !tierOrder.contains t),
    groupTiers_keys]
  congr 1
  exact List.filter_congr (fun t _ => bucket_isSome_eq_contains hs t)

/-- Every pair of `buildTierList` is a faithful bucket: its value is
exactly the names of the heroes carrying its label, in input order. -/
theorem mem_buildTierList_val (hs : List Hero) (t : String) (l : List String)
    (hm : (t, l) ∈ buildTierList hs) :
    l = (hs.filter (fun h => h.tier == t)).map Hero.name := by
  have hb : getBucket (groupTiers hs) t = some l := by
    rcases (by simpa [buildTierList] using hm :
        (t ∈ tierOrder ∧ getBucket (groupTiers hs) t = some l) ∨
          ((t, l) ∈ groupTiers hs ∧ t ∉ tierOrder)) with ⟨_, hvb⟩ | ⟨hmem, _⟩
    · exact hvb
    · exact mem_groupTiers_bucket hs t l hmem
  have hval := groupTiers_bucket_val hs t
  rw [hb] at hval
  simpa using hval

/-- Amended claim C7: `buildTierList` is a partition — keys are
duplicate-free, a label occurs exactly when some hero carries it, and each
bucket is precisely the names of the heroes with that label in input order
(so no entity is dropped or duplicated) — and the emitted key order is the
code's SIX fixed-priority labels `S+, S, A, B, C, Unranked` (the present
ones, in that order) followed by the remaining labels in first-seen order. -/
theorem C7_amended (hs : List Hero) :
    ((buildTierList hs).map Prod.fst).Nodup ∧
    (∀ t l, (t, l) ∈ buildTierList hs →
      l = (hs.filter (fun h => h.tier == t)).map Hero.name) ∧
    (∀ t, t ∈ (buildTierList hs).map Prod.fst ↔ t ∈ hs.map Hero.tier) ∧
    (buildTierList hs).map Prod.fst =
      tierOrder.filter (fun t => (hs.map Hero.tier).contains t) ++
        (firstSeenKeys (hs.map Hero.tier)).filter (fun t => !(tierOrder.contains t)) := by
  refine ⟨?_, ?_, ?_, buildTierList_keys hs⟩
  · rw [buildTierList_keys]
    refine List.Nodup.append ((by decide : tierOrder.Nodup).filter _)
      ((firstSeenKeys_nodup _).filter _) ?_
    intro a ha hb
    have h1 : a ∈ tierOrder := (List.mem_filter.mp ha).1
    have h2 := (List.mem_filter.mp hb).2
    simp only [List.contains, List.elem_eq_mem, Bool.not_eq_true', decide_eq_false_iff_not] at h2
    exact h2 h1
  · intro t l hm
    exact mem_buildTierList_val hs t l hm
  · intro t
    rw [buildTierList_keys]
    simp only [List.mem_append, List.mem_filter, firstSeenKeys_mem, List.contains,
      List.elem_eq_mem, decide_eq_true_eq, Bool.not_eq_true', decide_eq_false_iff_not]
    constructor
    · rintro (⟨_, hmem⟩ | ⟨hmem, _⟩) <;> exact hmem
    · intro hmem
      by_cases hto : t ∈ tierOrder
      · exact Or.inl ⟨hto, hmem⟩
      · exact Or.inr ⟨hmem, hto⟩

/-- Witness for C7 at a one-hero list: the single bucket of the tier `A`
hero is its name. -/
theorem C7_amended_witness :
    ("A", ["Alice"]) ∈ buildTierList [sampleHero] ∧
    ["Alice"] = ([sampleHero].filter (fun h => h.tier == "A")).map Hero.name :=
  ⟨by decide, (C7_amended [sampleHero]).2.1 "A" ["Alice"] (by decide)⟩
